import Mathlib

/-!
Shallow embedding of the context-management and round-orchestration core of
the debAIte repository:

* `src/agents/conversation_manager.py`  (class `ConversationManager`)
* `src/agents/batch_processor.py`       (class `BatchDebateProcessor`)
* `src/debate/debate_controller.py`     (class `DebateController`)
* `src/main.py`                         (function `run`, configuration guard)

External capabilities (the generative model call and the summarization call)
are modelled as explicit function parameters returning `Except String String`
(`Except.error e` models a raised exception whose rendered message is `e`);
per-agent response generation (`DebateAgent.respond`, which catches all
exceptions internally and always returns a string) is modelled as a total
function into `String`.  The `time` field of a history entry (a wall-clock
timestamp) is omitted: no logic in the repository reads it.
-/

namespace DebAIte

/-- Closed enum of context modes (`debate/context_mode.py`). -/
inductive ContextMode where
  | FULL
  | SUMMARIZED
  | HYBRID
  deriving DecidableEq, Repr

/-- One entry of `ConversationManager.history` (a Python dict with keys
`round`, `agent`, `message`, `type`; the `time` key is omitted, see above). -/
structure Message where
  round : Nat
  agent : String
  message : String
  type : String
  deriving DecidableEq, Repr

/-- State of `ConversationManager` (`agents/conversation_manager.py`). -/
structure ConversationManager where
  mode : ContextMode
  window_size : Nat
  summary_every_n_turns : Nat
  history : List Message
  summary : String
  round : Nat
  topic : String
  participants : List String
  turns_since_last_summary : Nat
  deriving DecidableEq, Repr

/-- The summarization capability: prompt to produced text, or a raised
exception rendered as a string. -/
abbrev Summarizer := String → Except String String

/-- Constructor `ConversationManager.__init__` with its default `window_size=3` and
`summary_every_n_turns=6` (the only values any caller in the repo uses). -/
def init_cm (mode : ContextMode) : ConversationManager :=
  { mode := mode, window_size := 3, summary_every_n_turns := 6, history := [],
    summary := "", round := 0, topic := "", participants := [],
    turns_since_last_summary := 0 }

/-- Build one history entry at the manager round `round`. -/
def mkMessage (round : Nat) (agent text kind : String) : Message :=
  { round := round, agent := agent, message := text, type := kind }

/-- The non-system entries of a history list
(Python `[m for m in history if m["type"] != "system"]`). -/
def nonSystem (h : List Message) : List Message :=
  h.filter (fun m => m.type ≠ "system")

/-- Rendering of one entry, Python f-string of agent, colon, message. -/
def renderMsg (m : Message) : String :=
  m.agent ++ ": " ++ m.message

/-- Python `"\n".join(lines)`. -/
def joinLines (l : List String) : String :=
  String.intercalate "\n" l

/-- Python `str.strip()` whitespace test, restricted to the ASCII
whitespace characters (no string in the embedded logic carries non-ASCII
whitespace). -/
def pyIsSpace (c : Char) : Bool :=
  c = ' ' || c = '\t' || c = '\n' || c = '\r' || c = '\x0B' || c = '\x0C'

/-- Drop leading whitespace of a character list. -/
def dropLeading : List Char → List Char
  | [] => []
  | c :: rest => if pyIsSpace c then dropLeading rest else c :: rest

/-- Python `s.strip()`: remove leading and trailing whitespace. -/
def pyStrip (s : String) : String :=
  String.mk (dropLeading ((dropLeading s.toList.reverse).reverse))

/-- Python slice `l[:-k]` for a non-negative `k`: empty when `k = 0`
(since `-0 == 0` and `l[:0] == []`), otherwise all but the last `k`. -/
def pySliceUpToNeg (l : List Message) (k : Nat) : List Message :=
  if k = 0 then [] else l.take (l.length - k)

/-- Python slice `l[-k:]` for a non-negative `k`: the whole list when `k = 0`
(since `-0 == 0` and `l[0:] == l`), otherwise the last `k` (clamped). -/
def pySliceLastNeg (l : List Message) (k : Nat) : List Message :=
  if k = 0 then l else l.drop (l.length - k)

/-- The fixed header of the summarization prompt built by `_update_summary`. -/
def summaryPromptHeader : String :=
  "Summarise the following multi-agent debate in ≤300 words. Preserve key claims and who made them.\n\n"

/-- The summarization prompt built by `_update_summary` over the entries
older than the window. -/
def summaryPrompt (old : List Message) : String :=
  summaryPromptHeader ++ joinLines (old.map renderMsg) ++ "\n\nSummary:"

/-- Method `ConversationManager._update_summary`: summarise everything except the
last `window_size` non-system entries; on failure keep the old summary and
append a failure note; in either of those two branches reset the counter.
When the non-system count is at most `window_size`, return unchanged
(early `return`, counter not reset). -/
def update_summary (s : Summarizer) (cm : ConversationManager) : ConversationManager :=
  let msgs := nonSystem cm.history
  if msgs.length ≤ cm.window_size then cm
  else
    let old := pySliceUpToNeg msgs cm.window_size
    let cm2 :=
      match s (summaryPrompt old) with
      | Except.ok t => { cm with summary := pyStrip t }
      | Except.error e => { cm with summary := cm.summary ++ "\n[Summary failed: " ++ e ++ "]" }
    { cm2 with turns_since_last_summary := 0 }

/-- Python `mode in (ContextMode.HYBRID, ContextMode.SUMMARIZED)`. -/
def triggerOn (m : ContextMode) : Bool :=
  match m with
  | ContextMode.HYBRID => true
  | ContextMode.SUMMARIZED => true
  | ContextMode.FULL => false

/-- Method `ConversationManager._add_message`: append the entry; for non-system
kinds increment the compaction counter and, when the mode participates in
summarization and the counter has reached the threshold, run
`_update_summary` synchronously. -/
def add_message_kind (s : Summarizer) (cm : ConversationManager)
    (speaker text kind : String) : ConversationManager :=
  let cm1 := { cm with history := cm.history ++ [mkMessage cm.round speaker text kind] }
  if kind = "system" then cm1
  else
    let cm2 := { cm1 with turns_since_last_summary := cm1.turns_since_last_summary + 1 }
    if triggerOn cm2.mode = true ∧ cm2.summary_every_n_turns ≤ cm2.turns_since_last_summary then
      update_summary s cm2
    else cm2

/-- Method `ConversationManager.add_system_message`. -/
def add_system_message (s : Summarizer) (cm : ConversationManager) (text : String) :
    ConversationManager :=
  add_message_kind s cm "SYSTEM" text "system"

/-- Method `ConversationManager.add_message`. -/
def add_message (s : Summarizer) (cm : ConversationManager) (speaker text : String) :
    ConversationManager :=
  add_message_kind s cm speaker text "response"

/-- Method `ConversationManager.advance_round`. -/
def advance_round (s : Summarizer) (cm : ConversationManager) : ConversationManager :=
  let cm1 := { cm with round := cm.round + 1 }
  add_system_message s cm1 ("Round " ++ toString cm1.round ++ " begins.")

/-- Method `ConversationManager.start_debate`. -/
def start_debate (s : Summarizer) (cm : ConversationManager) (topic : String)
    (agents : List String) : ConversationManager :=
  let cm1 := { cm with topic := topic, participants := agents, history := [],
                       round := 0, summary := "", turns_since_last_summary := 0 }
  let cm2 := add_system_message s cm1 ("Debate started on \x27" ++ topic ++ "\x27.")
  add_system_message s cm2 ("Participants: " ++ String.intercalate ", " agents)

/-- Method `ConversationManager._raw_history`. -/
def raw_history (cm : ConversationManager) (exclude : String) : String :=
  joinLines ((cm.history.filter (fun m => m.type ≠ "system" ∧ m.agent ≠ exclude)).map renderMsg)

/-- Method `ConversationManager._recent_window`. -/
def recent_window (cm : ConversationManager) (exclude : String) : String :=
  let msgs := nonSystem cm.history
  let window := pySliceLastNeg msgs (cm.window_size * 2)
  joinLines ((window.filter (fun m => m.agent ≠ exclude)).map renderMsg)

/-- Method `ConversationManager.context_for` (Python truthiness of a string is
`≠ ""`; `x or y` on strings is `if x = "" then y else x`). -/
def context_for (cm : ConversationManager) (requesting_agent : String) : String :=
  match cm.mode with
  | ContextMode.FULL => raw_history cm requesting_agent
  | ContextMode.SUMMARIZED => if cm.summary = "" then "[No summary yet]" else cm.summary
  | ContextMode.HYBRID =>
    let recent := recent_window cm requesting_agent
    let bits : List String :=
      (if cm.summary = "" then [] else ["[Earlier summary]\n" ++ cm.summary]) ++
      (if recent = "" then [] else [recent])
    let s := joinLines bits
    if s = "" then "[No context]" else s

/-! ## Batch processor (`agents/batch_processor.py`) -/

/-- Lookup in a Python dict modelled as an insertion-ordered association
list: first (unique) entry with the given key. -/
def lookupStr (d : List (String × String)) (k : String) : Option String :=
  match d with
  | [] => none
  | p :: rest => if p.1 = k then some p.2 else lookupStr rest k

/-- Python `k in d` for a dict. -/
def hasKey (d : List (String × String)) (k : String) : Bool :=
  match d with
  | [] => false
  | p :: rest => p.1 = k || hasKey rest k

/-- Python dict assignment `d[k] = v`: overwrite in place if the key is
present, else append at the end (insertion order). -/
def dictInsert (d : List (String × String)) (k v : String) : List (String × String) :=
  if hasKey d k then d.map (fun p => if p.1 = k then (k, v) else p)
  else d ++ [(k, v)]

/-- Helper for digit runs. -/
def digitsToNat (l : List Char) : Nat :=
  l.foldl (fun acc c => acc * 10 + (c.toNat - 48)) 0

/-- Python `int(s)` restricted to what can reach it in
`parse_batch_response` (the segment between the first and second underscore
of the line, so no inner underscores): strip whitespace, optional sign,
then a non-empty digit run; anything else raises `ValueError` (`none`). -/
def pyInt (str : String) : Option Int :=
  let t := pyStrip str
  let signed : Option (Bool × List Char) :=
    match t.toList with
    | [] => none
    | c :: rest =>
      if c = '-' then some (true, rest)
      else if c = '+' then some (false, rest)
      else some (false, c :: rest)
  match signed with
  | none => none
  | some (neg, ds) =>
    if ds ≠ [] ∧ ds.all Char.isDigit then
      some (if neg then -(digitsToNat ds : Int) else (digitsToNat ds : Int))
    else none

/-- Splitting helper: cut a character list at every occurrence of `c`
(the accumulator holds the current piece reversed). -/
def splitCharAux (c : Char) : List Char → List Char → List String
  | [], acc => [String.mk acc.reverse]
  | x :: rest, acc =>
    if x = c then String.mk acc.reverse :: splitCharAux c rest []
    else splitCharAux c rest (x :: acc)

/-- Python `s.split(c)` for a one-character separator (every separator in
`parse_batch_response` is one character). -/
def pySplitChar (s : String) (c : Char) : List String :=
  splitCharAux c s.toList []

/-- Boolean check that one character list begins with another. -/
def listStartsWith : List Char → List Char → Bool
  | _, [] => true
  | [], _ :: _ => false
  | a :: as, b :: bs => a = b && listStartsWith as bs

/-- Python `s.startswith(pre)`. -/
def pyStartsWith (s pre : String) : Bool :=
  listStartsWith s.toList pre.toList

/-- Python `c in s` for a single character. -/
def pyContains (s : String) (c : Char) : Bool :=
  s.toList.any (fun x => x = c)

/-- Python `line.split(c, 1)[1]`-style remainder: everything after the
first occurrence of `c` (meaningful only when `c` occurs). -/
def afterFirstChar (c : Char) (line : String) : String :=
  match pySplitChar line c with
  | [] => ""
  | _ :: rest => String.intercalate (String.mk [c]) rest

/-- Loop state of `parse_batch_response`: the dict built so far, the
current agent (`None` initially) and the accumulated response lines. -/
structure ParseState where
  responses : List (String × String)
  current_agent : Option String
  current_response : List String
  deriving DecidableEq, Repr

/-- Python `if current_agent and current_response: responses[current_agent] = " ".join(current_response).strip()`
(Python truthiness: `current_agent` must be neither `None` nor the empty
string, `current_response` a non-empty list). -/
def saveCurrent (st : ParseState) : List (String × String) :=
  match st.current_agent with
  | none => st.responses
  | some a =>
    if a = "" then st.responses
    else if st.current_response = [] then st.responses
    else dictInsert st.responses a (pyStrip (String.intercalate " " st.current_response))

/-- One iteration of the line loop of `parse_batch_response`. -/
def parseLine (agents : List String) (st : ParseState) (rawLine : String) : ParseState :=
  let line := pyStrip rawLine
  if pyStartsWith line "AGENT_" then
    let st1 : ParseState := { st with responses := saveCurrent st }
    let numStr := (pySplitChar ((pySplitChar line '_').getD 1 "") ':').headD ""
    match pyInt numStr with
    | none => st1
    | some n =>
      let ix : Int := n - 1
      if 0 ≤ ix ∧ ix < (agents.length : Int) then
        let a := agents.getD ix.toNat ""
        let response_part := if pyContains line ':' then pyStrip (afterFirstChar ':' line) else ""
        { st1 with current_agent := some a,
                   current_response := if response_part = "" then [] else [response_part] }
      else st1
  else
    match st.current_agent with
    | none => st
    | some a =>
      if a ≠ "" ∧ line ≠ "" then { st with current_response := st.current_response ++ [line] }
      else st

/-- The raw label scan of `parse_batch_response`: the dict right after the
line loop and the final save, before the placeholder fill. -/
def parseScan (agents : List String) (text : String) : List (String × String) :=
  let lines := pySplitChar (pyStrip text) '\n' 
  saveCurrent (lines.foldl (parseLine agents) { responses := [], current_agent := none, current_response := [] })

/-- Placeholder used by the fill loop of `parse_batch_response`. -/
def batchPlaceholder (name : String) : String :=
  "[Batch response parsing incomplete for " ++ name ++ "]"

/-- Method `BatchDebateProcessor.parse_batch_response`: the raw scan, then — when
the parsed count differs from the roster size — a placeholder for every
roster name that is absent. -/
def parse_batch_response (text : String) (agents : List String) : List (String × String) :=
  let responses := parseScan agents text
  if responses.length ≠ agents.length then
    agents.foldl (fun d name => if hasKey d name then d else dictInsert d name (batchPlaceholder name))
      responses
  else responses

/-- Placeholder used by `_fallback_individual_calls` when the call of one agent
raises. -/
def errorPlaceholder (e : String) : String :=
  "[Error generating response: " ++ e ++ "]"

/-- Method `BatchDebateProcessor._fallback_individual_calls`: one sequential
`agent.respond` per roster entry; a raising agent yields an error
placeholder, the loop continues. `respond name` is the outcome of the
call made for that agent. -/
def fallback_individual_calls (respond : String → Except String String)
    (agents : List String) : List (String × String) :=
  agents.foldl
    (fun d name =>
      dictInsert d name
        (match respond name with
         | Except.ok t => t
         | Except.error e => errorPlaceholder e))
    []

/-- Result of `batch_respond`: whether the sequential fallback was taken
(the code reports this by printing the failure before falling back), and
the per-agent response dict. -/
structure BatchResult where
  fellBack : Bool
  responses : List (String × String)
  deriving DecidableEq, Repr

/-- Method `BatchDebateProcessor.batch_respond`: `gen` is the outcome of the one
batched generation call (`Except.error e` models the raised exception);
on success the text is parsed, on failure the whole round falls back to
per-agent sequential calls. -/
def batch_respond (gen : Except String String)
    (respond : String → Except String String) (agents : List String) : BatchResult :=
  match gen with
  | Except.ok text => { fellBack := false, responses := parse_batch_response text agents }
  | Except.error _ => { fellBack := true, responses := fallback_individual_calls respond agents }

/-! ## Debate controller (`debate/debate_controller.py`) and CLI entry
(`src/main.py`) -/

/-- Observable scheduling events of a run: `advanced k` marks the
`cm.advance_round()` call that moved the round counter to `k`;
`appended name stage` marks one `cm.add_message(name, …)` call made for
that stage. -/
inductive Event where
  | advanced : Nat → Event
  | appended : String → String → Event
  deriving DecidableEq, Repr

/-- The external capabilities a run consumes.  `respond name context stage`
is the string returned by `DebateAgent.respond` (total: that method catches
every exception internally and returns an error string instead).  `gen k`
is the outcome of the single batched generation call made in round `k`;
`respondExc name context stage` is the outcome of one per-agent call inside
the sequential fallback of the batch processor (which wraps it in try/except). -/
structure Oracles where
  summarize : Summarizer
  respond : String → String → String → String
  gen : Nat → Except String String
  respondExc : String → String → String → Except String String

/-- Method `DebateController._individual_round`: one `agent.respond` plus one
`cm.add_message` per roster entry, in roster order; `shared_context = none`
models Python `shared_context is None` (per-agent `context_for`). -/
def individual_round (o : Oracles) (agents : List String) (stage : String)
    (shared_context : Option String) (cmes : ConversationManager × List Event) :
    ConversationManager × List Event :=
  agents.foldl
    (fun acc name =>
      let context :=
        match shared_context with
        | some c => c
        | none => context_for acc.1 name
      (add_message o.summarize acc.1 name (o.respond name context stage),
       acc.2 ++ [Event.appended name stage]))
    cmes

/-- Method `DebateController._batch_round`: one `batch_respond` call for the whole
round, then `responses.get(agent.name, "[No response from …]")` appended
for each roster entry in roster order. -/
def batch_round (o : Oracles) (agents : List String) (stage : String)
    (context : String) (cmes : ConversationManager × List Event) :
    ConversationManager × List Event :=
  let result := batch_respond (o.gen cmes.1.round)
    (fun name => o.respondExc name context stage) agents
  agents.foldl
    (fun acc name =>
      let resp := (lookupStr result.responses name).getD ("[No response from " ++ name ++ "]")
      (add_message o.summarize acc.1 name resp, acc.2 ++ [Event.appended name stage]))
    cmes

/-- Method `DebateController._opening_statements`: advance the round, then run the
round with the empty shared context (the Python code passes `""`, not
`None`, so even the individual path uses the shared empty context). -/
def opening_statements (o : Oracles) (agents : List String) (ub : Bool)
    (cmes : ConversationManager × List Event) : ConversationManager × List Event :=
  let cm1 := advance_round o.summarize cmes.1
  let cmes1 := (cm1, cmes.2 ++ [Event.advanced cm1.round])
  if ub then batch_round o agents "opening" "" cmes1
  else individual_round o agents "opening" (some "") cmes1

/-- Method `DebateController._rebuttal_round`: advance the round; the batched path
computes one shared context via `context_for("shared")`, the individual
path passes `None` (per-agent context). -/
def rebuttal_round (o : Oracles) (agents : List String) (ub : Bool)
    (cmes : ConversationManager × List Event) : ConversationManager × List Event :=
  let cm1 := advance_round o.summarize cmes.1
  let cmes1 := (cm1, cmes.2 ++ [Event.advanced cm1.round])
  if ub then batch_round o agents "rebuttal" (context_for cm1 "shared") cmes1
  else individual_round o agents "rebuttal" none cmes1

/-- Method `DebateController._closing_round`: same shape as a rebuttal with the
`closing` stage label. -/
def closing_round (o : Oracles) (agents : List String) (ub : Bool)
    (cmes : ConversationManager × List Event) : ConversationManager × List Event :=
  let cm1 := advance_round o.summarize cmes.1
  let cmes1 := (cm1, cmes.2 ++ [Event.advanced cm1.round])
  if ub then batch_round o agents "closing" (context_for cm1 "shared") cmes1
  else individual_round o agents "closing" none cmes1

/-- Loop `for r in range(2, max_rounds): self._rebuttal_round(r)` — the loop
body ignores `r` except for printing, so only the iteration count
(`max_rounds - 2`, clamped at zero) matters. -/
def iterate_rebuttals (o : Oracles) (agents : List String) (ub : Bool) :
    Nat → ConversationManager × List Event → ConversationManager × List Event
  | 0, cmes => cmes
  | Nat.succ k, cmes => iterate_rebuttals o agents ub k (rebuttal_round o agents ub cmes)

/-- Method `DebateController.__init__` followed by `run()`: construct the
conversation manager with defaults, `start_debate`, then opening,
`max_rounds - 2` rebuttals, closing.  (`_summary()` only prints.) -/
def debate_run (o : Oracles) (mode : ContextMode) (agents : List String)
    (topic : String) (max_rounds : Nat) (ub : Bool) :
    ConversationManager × List Event :=
  let cm0 := start_debate o.summarize (init_cm mode) topic agents
  closing_round o agents ub
    (iterate_rebuttals o agents ub (max_rounds - 2)
      (opening_statements o agents ub (cm0, [])))

/-- Function `run()` of `src/main.py`, configuration part: the CLI rejects a roster of
fewer than 2 agents before any controller is constructed (`return`), and
otherwise constructs `DebateController` without passing `max_rounds`, so
the debate always runs with the default `max_rounds = 3`. -/
def main_run (o : Oracles) (mode : ContextMode) (agents : List String)
    (topic : String) (ub : Bool) : Option (ConversationManager × List Event) :=
  if agents.length < 2 then none
  else some (debate_run o mode agents topic 3 ub)

/-! ## Specification-side descriptions used by the claims -/

/-- The stage schedule the spec describes: one opening, `max_rounds - 2`
rebuttals, one closing. -/
def schedule (max_rounds : Nat) : List String :=
  "opening" :: (List.replicate (max_rounds - 2) "rebuttal" ++ ["closing"])

/-- The events one stage should produce: one round advancement, then one
appended response per roster entry, in roster order. -/
def stage_events (agents : List String) (stage : String) (k : Nat) : List Event :=
  Event.advanced k :: agents.map (fun a => Event.appended a stage)

/-- The full event trace a schedule should produce starting at round `k`. -/
def trace_from (agents : List String) (stages : List String) (k : Nat) : List Event :=
  match stages with
  | [] => []
  | s :: rest => stage_events agents s k ++ trace_from agents rest (k + 1)

/-- States of a `ConversationManager` reachable in one debate session in a
given mode: a `start_debate` on a freshly constructed manager followed by
any sequence of system appends, response appends and round advancements —
each step with an arbitrary summarization outcome. -/
inductive ReachableFrom (mode : ContextMode) : ConversationManager → Prop where
  | start : ∀ (s : Summarizer) (topic : String) (agents : List String),
      ReachableFrom mode (start_debate s (init_cm mode) topic agents)
  | sys : ∀ (s : Summarizer) (cm : ConversationManager) (text : String),
      ReachableFrom mode cm → ReachableFrom mode (add_system_message s cm text)
  | msg : ∀ (s : Summarizer) (cm : ConversationManager) (sp text : String),
      ReachableFrom mode cm → ReachableFrom mode (add_message s cm sp text)
  | adv : ∀ (s : Summarizer) (cm : ConversationManager),
      ReachableFrom mode cm → ReachableFrom mode (advance_round s cm)

/-- The key list of a dict modelled as an association list. -/
def keys (d : List (String × String)) : List String :=
  d.map Prod.fst

/-- Invariant of the `parse_batch_response` line loop: the dict keys are
distinct roster names, and the current agent (when set) is a roster name. -/
def StInv (agents : List String) (st : ParseState) : Prop :=
  (keys st.responses).Nodup ∧ (∀ k ∈ keys st.responses, k ∈ agents) ∧
  (∀ a, st.current_agent = some a → a ∈ agents)

/-! ## Concrete fixtures used by witnesses and counterexamples -/

/-- A conversation manager with the given mode, window, threshold, history,
summary and counter (round 0, empty topic and roster). -/
def mkCM (mode : ContextMode) (ws every : Nat) (hist : List Message)
    (summ : String) (turns : Nat) : ConversationManager :=
  { mode := mode, window_size := ws, summary_every_n_turns := every,
    history := hist, summary := summ, round := 0, topic := "",
    participants := [], turns_since_last_summary := turns }

/-- A summarizer that always succeeds with the text `S`. -/
def sOk : Summarizer := fun _ => Except.ok "S"

/-- A summarizer that returns its own prompt (to observe what was
summarized). -/
def sEcho : Summarizer := fun p => Except.ok p

/-- A summarizer whose call raises `boom`. -/
def sFail : Summarizer := fun _ => Except.error "boom"

/-- Oracles for a run in which every external call succeeds. -/
def oEx : Oracles :=
  { summarize := sOk, respond := fun _ _ _ => "r",
    gen := fun _ => Except.ok "", respondExc := fun _ _ _ => Except.ok "r" }

/-- SUMMARIZED mode, threshold 1, window 3, fresh session. -/
def cmC1 : ConversationManager := mkCM ContextMode.SUMMARIZED 3 1 [] "" 0

/-- SUMMARIZED mode, threshold 2, window 1, two prior response turns,
counter 1: the next response triggers a real compaction. -/
def cmW1 : ConversationManager :=
  mkCM ContextMode.SUMMARIZED 1 2
    [mkMessage 0 "A" "a" "response", mkMessage 0 "B" "b" "response"] "" 1

/-- window 1 with two response turns and a prior summary: a compaction that
actually summarizes. -/
def cmC7 : ConversationManager :=
  mkCM ContextMode.SUMMARIZED 1 6
    [mkMessage 0 "A" "a" "response", mkMessage 0 "B" "b" "response"] "prior" 0

/-- HYBRID mode with `window_size = 0` and one response turn by `B`. -/
def cmC8 : ConversationManager :=
  mkCM ContextMode.HYBRID 0 100 [mkMessage 1 "B" "hi" "response"] "" 1

/-- HYBRID mode, window 1, three response turns and a non-empty summary. -/
def cmC8w : ConversationManager :=
  mkCM ContextMode.HYBRID 1 100
    [mkMessage 1 "A" "a" "response", mkMessage 1 "B" "b" "response",
     mkMessage 1 "C" "c" "response"] "sum" 3

/-- SUMMARIZED mode with `window_size = 0`, threshold 1, one prior response
turn. -/
def cmC10 : ConversationManager :=
  mkCM ContextMode.SUMMARIZED 0 1 [mkMessage 0 "A" "x" "response"] "" 0

/-- FULL mode with one system and two response turns. -/
def cmEx3 : ConversationManager :=
  mkCM ContextMode.FULL 3 6
    [mkMessage 0 "SYSTEM" "s" "system", mkMessage 1 "A" "a" "response",
     mkMessage 1 "B" "b" "response"] "" 2

/-- A batched response text whose labels cover agents 1 and 3 but not 2. -/
def batchText : String := "AGENT_1: foo\nAGENT_3: bar"

/-- A three-agent roster. -/
def rosterABC : List String := ["A", "B", "C"]

/-- Per-agent call outcomes in which exactly agent `B` raises. -/
def respMixed : String → Except String String :=
  fun n => if n = "B" then Except.error "boom" else Except.ok ("resp-" ++ n)

/-! ## Basic lemmas about the conversation manager -/

theorem update_summary_history (s : Summarizer) (cm : ConversationManager) :
    (update_summary s cm).history = cm.history := by
  unfold update_summary
  dsimp only
  split
  · rfl
  · split <;> rfl

theorem update_summary_round (s : Summarizer) (cm : ConversationManager) :
    (update_summary s cm).round = cm.round := by
  unfold update_summary
  dsimp only
  split
  · rfl
  · split <;> rfl

theorem update_summary_mode (s : Summarizer) (cm : ConversationManager) :
    (update_summary s cm).mode = cm.mode := by
  unfold update_summary
  dsimp only
  split
  · rfl
  · split <;> rfl

theorem update_summary_window (s : Summarizer) (cm : ConversationManager) :
    (update_summary s cm).window_size = cm.window_size := by
  unfold update_summary
  dsimp only
  split
  · rfl
  · split <;> rfl

theorem update_summary_every (s : Summarizer) (cm : ConversationManager) :
    (update_summary s cm).summary_every_n_turns = cm.summary_every_n_turns := by
  unfold update_summary
  dsimp only
  split
  · rfl
  · split <;> rfl

theorem add_message_kind_history (s : Summarizer) (cm : ConversationManager)
    (sp t k : String) :
    (add_message_kind s cm sp t k).history = cm.history ++ [mkMessage cm.round sp t k] := by
  unfold add_message_kind
  dsimp only
  split
  · rfl
  · split
    · rw [update_summary_history]
    · rfl

theorem add_message_kind_round (s : Summarizer) (cm : ConversationManager)
    (sp t k : String) :
    (add_message_kind s cm sp t k).round = cm.round := by
  unfold add_message_kind
  dsimp only
  split
  · rfl
  · split
    · rw [update_summary_round]
    · rfl

theorem add_message_kind_mode (s : Summarizer) (cm : ConversationManager)
    (sp t k : String) :
    (add_message_kind s cm sp t k).mode = cm.mode := by
  unfold add_message_kind
  dsimp only
  split
  · rfl
  · split
    · rw [update_summary_mode]
    · rfl

theorem add_message_kind_window (s : Summarizer) (cm : ConversationManager)
    (sp t k : String) :
    (add_message_kind s cm sp t k).window_size = cm.window_size := by
  unfold add_message_kind
  dsimp only
  split
  · rfl
  · split
    · rw [update_summary_window]
    · rfl

theorem add_message_kind_every (s : Summarizer) (cm : ConversationManager)
    (sp t k : String) :
    (add_message_kind s cm sp t k).summary_every_n_turns = cm.summary_every_n_turns := by
  unfold add_message_kind
  dsimp only
  split
  · rfl
  · split
    · rw [update_summary_every]
    · rfl

theorem nonSystem_append (h : List Message) (m : Message) :
    nonSystem (h ++ [m]) = nonSystem h ++ nonSystem [m] := by
  unfold nonSystem
  exact List.filter_append _ _

theorem nonSystem_response (r : Nat) (sp t : String) :
    nonSystem [mkMessage r sp t "response"] = [mkMessage r sp t "response"] := by
  simp [nonSystem, mkMessage]

theorem nonSystem_system (r : Nat) (sp t : String) :
    nonSystem [mkMessage r sp t "system"] = [] := by
  simp [nonSystem, mkMessage]

theorem add_system_message_history (s : Summarizer) (cm : ConversationManager) (t : String) :
    (add_system_message s cm t).history = cm.history ++ [mkMessage cm.round "SYSTEM" t "system"] :=
  add_message_kind_history s cm "SYSTEM" t "system"

theorem add_system_message_state (s : Summarizer) (cm : ConversationManager) (t : String) :
    add_system_message s cm t =
      { cm with history := cm.history ++ [mkMessage cm.round "SYSTEM" t "system"] } := by
  unfold add_system_message add_message_kind
  simp

theorem nonSystem_add_system (s : Summarizer) (cm : ConversationManager) (t : String) :
    nonSystem (add_system_message s cm t).history = nonSystem cm.history := by
  rw [add_system_message_history, nonSystem_append, nonSystem_system, List.append_nil]

theorem add_message_history (s : Summarizer) (cm : ConversationManager) (sp t : String) :
    (add_message s cm sp t).history = cm.history ++ [mkMessage cm.round sp t "response"] :=
  add_message_kind_history s cm sp t "response"

theorem nonSystem_add_message (s : Summarizer) (cm : ConversationManager) (sp t : String) :
    nonSystem (add_message s cm sp t).history
      = nonSystem cm.history ++ [mkMessage cm.round sp t "response"] := by
  rw [add_message_history, nonSystem_append, nonSystem_response]

theorem advance_round_round (s : Summarizer) (cm : ConversationManager) :
    (advance_round s cm).round = cm.round + 1 := by
  unfold advance_round
  rw [add_system_message_state]

theorem advance_round_state (s : Summarizer) (cm : ConversationManager) :
    advance_round s cm =
      { cm with round := cm.round + 1,
                history := cm.history ++
                  [mkMessage (cm.round + 1) "SYSTEM" ("Round " ++ toString (cm.round + 1) ++ " begins.") "system"] } := by
  unfold advance_round
  rw [add_system_message_state]

theorem nonSystem_advance_round (s : Summarizer) (cm : ConversationManager) :
    nonSystem (advance_round s cm).history = nonSystem cm.history := by
  rw [advance_round_state]
  dsimp only
  rw [nonSystem_append, nonSystem_system, List.append_nil]

theorem response_ne_system : ("response" : String) ≠ "system" := by decide

/-- Unfolding of `add_message`: append and increment, then compact exactly when
the mode participates and the incremented counter has reached the
threshold. -/
theorem add_message_eq (s : Summarizer) (cm : ConversationManager) (sp t : String) :
    add_message s cm sp t =
      (if triggerOn cm.mode = true ∧
          cm.summary_every_n_turns ≤ cm.turns_since_last_summary + 1 then
        update_summary s
          { cm with history := cm.history ++ [mkMessage cm.round sp t "response"],
                    turns_since_last_summary := cm.turns_since_last_summary + 1 }
      else
        { cm with history := cm.history ++ [mkMessage cm.round sp t "response"],
                  turns_since_last_summary := cm.turns_since_last_summary + 1 }) := by
  unfold add_message add_message_kind
  simp [response_ne_system]

theorem add_message_full (s : Summarizer) (cm : ConversationManager) (sp t : String)
    (h : cm.mode = ContextMode.FULL) :
    add_message s cm sp t =
      { cm with history := cm.history ++ [mkMessage cm.round sp t "response"],
                turns_since_last_summary := cm.turns_since_last_summary + 1 } := by
  rw [add_message_eq]
  rw [if_neg]
  intro hc
  rw [h] at hc
  exact absurd hc.1 (by decide)

theorem start_debate_state (s : Summarizer) (cm : ConversationManager) (topic : String)
    (agents : List String) :
    start_debate s cm topic agents =
      { cm with topic := topic, participants := agents, round := 0,
                summary := "", turns_since_last_summary := 0,
                history :=
                  [mkMessage 0 "SYSTEM" ("Debate started on \x27" ++ topic ++ "\x27.") "system",
                   mkMessage 0 "SYSTEM" ("Participants: " ++ String.intercalate ", " agents) "system"] } := by
  unfold start_debate
  rw [add_system_message_state, add_system_message_state]
  rfl

theorem reachable_mode {mode : ContextMode} {cm : ConversationManager}
    (h : ReachableFrom mode cm) : cm.mode = mode := by
  induction h with
  | start s topic agents => rw [start_debate_state]; rfl
  | sys s cm text _ ih => rw [add_system_message_state]; exact ih
  | msg s cm sp text _ ih => rw [show (add_message s cm sp text).mode = cm.mode from add_message_kind_mode ..]; exact ih
  | adv s cm _ ih => rw [advance_round_state]; exact ih

/-- In FULL mode the rolling summary stays empty through any session. -/
theorem reachable_full_summary_empty {cm : ConversationManager}
    (h : ReachableFrom ContextMode.FULL cm) : cm.summary = "" := by
  induction h with
  | start s topic agents => rw [start_debate_state]
  | sys s cm text _ ih => rw [add_system_message_state]; exact ih
  | msg s cm sp text hr ih =>
      rw [add_message_full s cm sp text (reachable_mode hr)]
      exact ih
  | adv s cm _ ih => rw [advance_round_state]; exact ih

theorem update_summary_noop (s : Summarizer) (cm : ConversationManager)
    (h : (nonSystem cm.history).length ≤ cm.window_size) :
    update_summary s cm = cm := by
  unfold update_summary
  dsimp only
  rw [if_pos h]

theorem update_summary_reset (s : Summarizer) (cm : ConversationManager)
    (h : cm.window_size < (nonSystem cm.history).length) :
    (update_summary s cm).turns_since_last_summary = 0 := by
  unfold update_summary
  dsimp only
  rw [if_neg (not_le.mpr h)]

theorem update_summary_summary_of_lt (s : Summarizer) (cm : ConversationManager)
    (h : cm.window_size < (nonSystem cm.history).length) :
    (update_summary s cm).summary =
      (match s (summaryPrompt (pySliceUpToNeg (nonSystem cm.history) cm.window_size)) with
       | Except.ok t => pyStrip t
       | Except.error e => cm.summary ++ "\n[Summary failed: " ++ e ++ "]") := by
  unfold update_summary
  dsimp only
  rw [if_neg (not_le.mpr h)]
  split <;> rfl

theorem pySliceUpToNeg_pos (l : List Message) (k : Nat) (hk : k ≠ 0) :
    pySliceUpToNeg l k = l.take (l.length - k) := by
  unfold pySliceUpToNeg
  rw [if_neg hk]

theorem pySliceLastNeg_length_le (l : List Message) (k : Nat) (hk : k ≠ 0) :
    (pySliceLastNeg l k).length ≤ k := by
  unfold pySliceLastNeg
  rw [if_neg hk]
  rw [List.length_drop]
  omega

/-! ## Claim theorems -/

/-- C1 counterexample: in SUMMARIZED mode with threshold 1 and window 3, the
very first response turn reaches the threshold, yet no compaction happens
and the counter is left at 1, not reset to 0 — the claimed "whenever it
reaches the configured threshold … compaction fires … and the counter then
resets to 0" fails. -/
theorem claim1_counterexample :
    triggerOn cmC1.mode = true ∧
    cmC1.summary_every_n_turns ≤ cmC1.turns_since_last_summary + 1 ∧
    (add_message sOk cmC1 "A" "hi").turns_since_last_summary = 1 ∧
    (add_message sOk cmC1 "A" "hi").summary = "" := by
  decide

/-- C1 (amended): the counter increments on every non-system append and is
untouched by system appends; when the incremented counter reaches the
threshold and the mode is SUMMARIZED or HYBRID, `_update_summary` runs
synchronously, but it resets the counter to 0 only when the non-system turn
count exceeds `window_size` (otherwise it is a no-op and the counter keeps
its incremented value); compaction is never triggered in FULL mode, and in
FULL mode the rolling summary remains empty throughout the session. -/
theorem claim1_compaction_counter_amended :
    (∀ (s : Summarizer) (cm : ConversationManager) (sp t : String),
      (add_message s cm sp t).turns_since_last_summary =
        (if triggerOn cm.mode = true ∧
            cm.summary_every_n_turns ≤ cm.turns_since_last_summary + 1 then
          (if (nonSystem cm.history).length + 1 ≤ cm.window_size
           then cm.turns_since_last_summary + 1 else 0)
         else cm.turns_since_last_summary + 1))
    ∧ (∀ (s : Summarizer) (cm : ConversationManager) (t : String),
        (add_system_message s cm t).turns_since_last_summary = cm.turns_since_last_summary)
    ∧ (∀ (s : Summarizer) (cm : ConversationManager) (sp t : String),
        cm.mode = ContextMode.FULL →
        (add_message s cm sp t).summary = cm.summary ∧
        (add_message s cm sp t).turns_since_last_summary = cm.turns_since_last_summary + 1)
    ∧ (∀ cm : ConversationManager, ReachableFrom ContextMode.FULL cm → cm.summary = "") := by
  refine ⟨?_, ?_, ?_, fun cm h => reachable_full_summary_empty h⟩
  · intro s cm sp t
    rw [add_message_eq]
    by_cases hc : triggerOn cm.mode = true ∧
        cm.summary_every_n_turns ≤ cm.turns_since_last_summary + 1
    · rw [if_pos hc, if_pos hc]
      set cm2 : ConversationManager :=
        { cm with history := cm.history ++ [mkMessage cm.round sp t "response"],
                  turns_since_last_summary := cm.turns_since_last_summary + 1 } with hcm2
      have hlen : (nonSystem cm2.history).length = (nonSystem cm.history).length + 1 := by
        rw [hcm2]
        dsimp only
        rw [nonSystem_append, nonSystem_response, List.length_append]
        rfl
      by_cases hw : (nonSystem cm.history).length + 1 ≤ cm.window_size
      · rw [if_pos hw]
        rw [update_summary_noop s cm2 (by rw [hlen]; exact hw)]
      · rw [if_neg hw]
        refine update_summary_reset s cm2 ?_
        rw [hlen]
        show cm.window_size < (nonSystem cm.history).length + 1
        omega
    · rw [if_neg hc, if_neg hc]
  · intro s cm t
    rw [add_system_message_state]
  · intro s cm sp t h
    rw [add_message_full s cm sp t h]
    exact ⟨rfl, rfl⟩

/-- C1 amended witness: a triggered compaction with enough non-system turns
does reset the counter to 0, and a FULL-mode session start has an empty
summary. -/
theorem claim1_amended_witness :
    (add_message sOk cmW1 "A" "x").turns_since_last_summary = 0 ∧
    (start_debate sOk (init_cm ContextMode.FULL) "t" ["A"]).summary = "" := by
  constructor
  · rw [claim1_compaction_counter_amended.1 sOk cmW1 "A" "x"]
    decide
  · exact claim1_compaction_counter_amended.2.2.2 _ (ReachableFrom.start sOk "t" ["A"])

/-- C10 counterexample: with `window_size = 0` a triggered compaction
summarizes the Python slice `msgs[:-0]`, which is the empty list — not
"every non-system turn except the most recent 0", which would be all of
them.  The summary produced (observed with an echoing summarizer) is the
prompt over no turns, and differs from the prompt over all non-system
turns. -/
theorem claim10_counterexample :
    (add_message sEcho cmC10 "B" "y").summary = pyStrip (summaryPrompt []) ∧
    (add_message sEcho cmC10 "B" "y").summary ≠
      pyStrip (summaryPrompt (nonSystem (add_message sEcho cmC10 "B" "y").history)) := by
  constructor
  · decide
  · decide

/-- C10 (amended): when a compaction trigger fires while the non-system
turn count is at most `window_size`, nothing is summarized, the summary is
unchanged and the counter keeps its incremented value — still at or above
the threshold, so the trigger re-fires on each later non-system append;
when the count exceeds `window_size`, a summary is computed and the counter
resets to 0, the summarized block being every non-system turn except the
most recent `window_size` provided `window_size ≥ 1` (at `window_size = 0`
the Python slice `[:-0]` degenerates to the empty list). -/
theorem claim10_small_history_amended :
    (∀ (s : Summarizer) (cm : ConversationManager) (sp t : String),
      triggerOn cm.mode = true →
      cm.summary_every_n_turns ≤ cm.turns_since_last_summary + 1 →
      (nonSystem cm.history).length + 1 ≤ cm.window_size →
      (add_message s cm sp t).summary = cm.summary ∧
      (add_message s cm sp t).turns_since_last_summary = cm.turns_since_last_summary + 1 ∧
      cm.summary_every_n_turns ≤ (add_message s cm sp t).turns_since_last_summary)
    ∧ (∀ (s : Summarizer) (cm : ConversationManager),
      1 ≤ cm.window_size →
      cm.window_size < (nonSystem cm.history).length →
      (update_summary s cm).turns_since_last_summary = 0 ∧
      (update_summary s cm).summary =
        (match s (summaryPrompt
            ((nonSystem cm.history).take ((nonSystem cm.history).length - cm.window_size))) with
         | Except.ok t => pyStrip t
         | Except.error e => cm.summary ++ "\n[Summary failed: " ++ e ++ "]")) := by
  constructor
  · intro s cm sp t h1 h2 h3
    rw [add_message_eq, if_pos ⟨h1, h2⟩]
    set cm2 : ConversationManager :=
      { cm with history := cm.history ++ [mkMessage cm.round sp t "response"],
                turns_since_last_summary := cm.turns_since_last_summary + 1 } with hcm2
    have hlen : (nonSystem cm2.history).length = (nonSystem cm.history).length + 1 := by
      rw [hcm2]
      dsimp only
      rw [nonSystem_append, nonSystem_response, List.length_append]
      rfl
    rw [update_summary_noop s cm2 (by rw [hlen]; exact h3)]
    exact ⟨rfl, rfl, h2⟩
  · intro s cm h1 h2
    refine ⟨update_summary_reset s cm h2, ?_⟩
    rw [update_summary_summary_of_lt s cm h2,
        pySliceUpToNeg_pos (nonSystem cm.history) cm.window_size (by omega)]

/-- C10 amended witness: an under-window trigger leaves the summary and the
threshold condition intact, and an over-window compaction at window 1
summarizes exactly the older turn. -/
theorem claim10_amended_witness :
    ((add_message sOk cmC1 "A" "hi").summary = "" ∧
     (add_message sOk cmC1 "A" "hi").turns_since_last_summary = 0 + 1 ∧
     cmC1.summary_every_n_turns ≤ (add_message sOk cmC1 "A" "hi").turns_since_last_summary) ∧
    ((update_summary sEcho cmC7).turns_since_last_summary = 0 ∧
     (update_summary sEcho cmC7).summary =
       (match sEcho (summaryPrompt
           ((nonSystem cmC7.history).take ((nonSystem cmC7.history).length - cmC7.window_size))) with
        | Except.ok t => pyStrip t
        | Except.error e => cmC7.summary ++ "\n[Summary failed: " ++ e ++ "]")) := by
  constructor
  · exact claim10_small_history_amended.1 sOk cmC1 "A" "hi" (by decide) (by decide) (by decide)
  · exact claim10_small_history_amended.2 sEcho cmC7 (by decide) (by decide)

/-- C7: when the summarization call raises during a compaction that
actually summarizes, the prior summary is kept with the failure reason
appended as a visible annotated suffix, the counter is still reset to 0,
and nothing else of the session state is touched (the failure is caught,
so the round continues). -/
theorem claim7_summary_failure_kept (s : Summarizer) (cm : ConversationManager) (e : String)
    (hcount : cm.window_size < (nonSystem cm.history).length)
    (hcall : s (summaryPrompt (pySliceUpToNeg (nonSystem cm.history) cm.window_size)) =
      Except.error e) :
    (update_summary s cm).summary = cm.summary ++ "\n[Summary failed: " ++ e ++ "]" ∧
    (update_summary s cm).turns_since_last_summary = 0 ∧
    (update_summary s cm).history = cm.history ∧
    (update_summary s cm).round = cm.round ∧
    (update_summary s cm).mode = cm.mode := by
  refine ⟨?_, update_summary_reset s cm hcount, update_summary_history s cm,
    update_summary_round s cm, update_summary_mode s cm⟩
  rw [update_summary_summary_of_lt s cm hcount, hcall]

/-- C7 witness: a concrete failing compaction keeps `prior` and appends the
annotated reason. -/
theorem claim7_witness :
    (update_summary sFail cmC7).summary = "prior\n[Summary failed: boom]" ∧
    (update_summary sFail cmC7).turns_since_last_summary = 0 := by
  have h := claim7_summary_failure_kept sFail cmC7 "boom" (by decide) rfl
  exact ⟨h.1, h.2.1⟩

/-- C3: in FULL mode, `context_for` is the newline-joined rendering of every
non-system turn not authored by the requester, in chronological (history)
order with no length cap, and every rendered line comes from a turn whose
speaker differs from the requester. -/
theorem claim3_full_context (cm : ConversationManager) (x : String)
    (hm : cm.mode = ContextMode.FULL) :
    context_for cm x =
      joinLines (((nonSystem cm.history).filter (fun m => m.agent ≠ x)).map renderMsg) ∧
    ∀ line ∈ ((nonSystem cm.history).filter (fun m => m.agent ≠ x)).map renderMsg,
      ∃ m, m ∈ nonSystem cm.history ∧ m.agent ≠ x ∧ line = renderMsg m := by
  constructor
  · unfold context_for
    rw [hm]
    dsimp only
    unfold raw_history nonSystem
    rw [List.filter_filter]
    have hfun : (fun (a : Message) => decide (a.agent ≠ x) && decide (a.type ≠ "system")) =
        (fun (m : Message) => decide (m.type ≠ "system" ∧ m.agent ≠ x)) := by
      funext m
      by_cases h1 : m.type = "system" <;> by_cases h2 : m.agent = x <;> simp [h1, h2]
    rw [hfun]
  · intro line hline
    rcases List.mem_map.mp hline with ⟨m, hm1, hm2⟩
    rcases List.mem_filter.mp hm1 with ⟨hmem, hag⟩
    exact ⟨m, hmem, of_decide_eq_true hag, hm2.symm⟩

/-- C3 witness: a concrete FULL-mode transcript, requested by `A`, yields
only the line of `B`. -/
theorem claim3_witness :
    context_for cmEx3 "A" =
      joinLines (((nonSystem cmEx3.history).filter (fun m => m.agent ≠ "A")).map renderMsg) :=
  (claim3_full_context cmEx3 "A" rfl).1

/-- C8 counterexample: in HYBRID mode with `window_size = 0` and an empty
summary, the claim predicts a recent-window component of at most
`2 × 0 = 0` entries and hence the `[No context]` sentinel; but the Python
slice `msgs[-0:]` is the whole history, so `context_for` returns the line
of `B` instead. -/
theorem claim8_counterexample :
    cmC8.window_size = 0 ∧ cmC8.summary = "" ∧ context_for cmC8 "A" = "B: hi" := by
  refine ⟨rfl, rfl, ?_⟩
  rfl

/-- C8 (amended): in HYBRID mode with `window_size ≥ 1`, `context_for`
returns the summary block (when the summary is non-empty) followed by the
rendering of the last `2 × window_size` non-system turns with those of
the requester excluded; that window holds at most `2 × window_size`
entries however long the transcript is; and when the summary is empty and
the window is empty the sentinel `[No context]` is returned.  (At
`window_size = 0` the Python slice `[-0:]` degenerates to the whole
history, so the bound fails there.) -/
theorem claim8_hybrid_window_amended (cm : ConversationManager) (x : String)
    (hm : cm.mode = ContextMode.HYBRID) (hws : 1 ≤ cm.window_size) :
    ((pySliceLastNeg (nonSystem cm.history) (cm.window_size * 2)).filter
        (fun m => m.agent ≠ x)).length ≤ 2 * cm.window_size ∧
    context_for cm x =
      (let recent := joinLines
          (((pySliceLastNeg (nonSystem cm.history) (cm.window_size * 2)).filter
            (fun m => m.agent ≠ x)).map renderMsg)
       let bits : List String :=
         (if cm.summary = "" then [] else ["[Earlier summary]\n" ++ cm.summary]) ++
         (if recent = "" then [] else [recent])
       if joinLines bits = "" then "[No context]" else joinLines bits) ∧
    (cm.summary = "" →
     (pySliceLastNeg (nonSystem cm.history) (cm.window_size * 2)).filter
        (fun m => m.agent ≠ x) = [] →
     context_for cm x = "[No context]") := by
  refine ⟨?_, ?_, ?_⟩
  · calc ((pySliceLastNeg (nonSystem cm.history) (cm.window_size * 2)).filter
          (fun m => m.agent ≠ x)).length
        ≤ (pySliceLastNeg (nonSystem cm.history) (cm.window_size * 2)).length :=
          List.length_filter_le _ _
      _ ≤ cm.window_size * 2 :=
          pySliceLastNeg_length_le _ _ (by omega)
      _ = 2 * cm.window_size := Nat.mul_comm _ _
  · unfold context_for
    rw [hm]
    rfl
  · intro hsum hwin
    unfold context_for
    rw [hm]
    dsimp only
    rw [hsum]
    unfold recent_window
    dsimp only
    rw [hwin]
    rfl

/-- C8 amended witness: window 1 with three turns and a summary — the
window keeps at most 2 entries and the result is the summary block plus
the last two foreign turns. -/
theorem claim8_witness :
    ((pySliceLastNeg (nonSystem cmC8w.history) (cmC8w.window_size * 2)).filter
        (fun m => m.agent ≠ "A")).length ≤ 2 * cmC8w.window_size ∧
    context_for cmC8w "A" =
      (let recent := joinLines
          (((pySliceLastNeg (nonSystem cmC8w.history) (cmC8w.window_size * 2)).filter
            (fun m => m.agent ≠ "A")).map renderMsg)
       let bits : List String :=
         (if cmC8w.summary = "" then [] else ["[Earlier summary]\n" ++ cmC8w.summary]) ++
         (if recent = "" then [] else [recent])
       if joinLines bits = "" then "[No context]" else joinLines bits) := by
  have h := claim8_hybrid_window_amended cmC8w "A" rfl (by decide)
  exact ⟨h.1, h.2.1⟩

/-! ## Dict lemmas -/

theorem hasKey_iff_mem_keys (d : List (String × String)) (k : String) :
    hasKey d k = true ↔ k ∈ keys d := by
  induction d with
  | nil => simp [hasKey, keys]
  | cons p rest ih =>
    show (decide (p.1 = k) || hasKey rest k) = true ↔ k ∈ p.1 :: keys rest
    rw [Bool.or_eq_true_iff, decide_eq_true_eq, List.mem_cons, ih, eq_comm]

theorem lookupStr_eq_none_iff (d : List (String × String)) (k : String) :
    lookupStr d k = none ↔ k ∉ keys d := by
  induction d with
  | nil => simp [lookupStr, keys]
  | cons p rest ih =>
    unfold lookupStr
    by_cases hp : p.1 = k
    · simp [hp, keys]
    · simp [hp, keys, ih, List.mem_cons, Ne.symm hp]

theorem lookup_map_overwrite (d : List (String × String)) (k v : String)
    (h : hasKey d k = true) :
    lookupStr (d.map (fun p => if p.1 = k then (k, v) else p)) k = some v := by
  induction d with
  | nil => simp [hasKey] at h
  | cons p rest ih =>
    by_cases hp : p.1 = k
    · simp only [List.map_cons, if_pos hp]
      unfold lookupStr
      rw [if_pos rfl]
    · simp only [List.map_cons, if_neg hp]
      unfold lookupStr
      rw [if_neg hp]
      refine ih ?_
      unfold hasKey at h
      rcases Bool.or_eq_true_iff.mp h with h1 | h1
      · exact absurd (of_decide_eq_true h1) hp
      · exact h1

theorem lookup_map_overwrite_ne (d : List (String × String)) (k v k' : String)
    (h : k' ≠ k) :
    lookupStr (d.map (fun p => if p.1 = k then (k, v) else p)) k' = lookupStr d k' := by
  induction d with
  | nil => rfl
  | cons p rest ih =>
    by_cases hp : p.1 = k
    · simp only [List.map_cons, if_pos hp]
      unfold lookupStr
      rw [if_neg (fun hk => h hk.symm), if_neg (by rw [hp]; exact fun hk => h hk.symm)]
      exact ih
    · simp only [List.map_cons, if_neg hp]
      unfold lookupStr
      by_cases hp2 : p.1 = k'
      · rw [if_pos hp2, if_pos hp2]
      · rw [if_neg hp2, if_neg hp2]
        exact ih

theorem lookup_append_single_ne (d : List (String × String)) (k v k' : String)
    (h : k' ≠ k) :
    lookupStr (d ++ [(k, v)]) k' = lookupStr d k' := by
  induction d with
  | nil =>
    show lookupStr [(k, v)] k' = none
    unfold lookupStr
    rw [if_neg (fun hk => h hk.symm)]
    rfl
  | cons p rest ih =>
    show lookupStr (p :: (rest ++ [(k, v)])) k' = _
    unfold lookupStr
    by_cases hp : p.1 = k'
    · rw [if_pos hp, if_pos hp]
    · rw [if_neg hp, if_neg hp]
      exact ih

theorem lookup_append_single_self (d : List (String × String)) (k v : String)
    (h : ¬ hasKey d k = true) :
    lookupStr (d ++ [(k, v)]) k = some v := by
  induction d with
  | nil =>
    show lookupStr [(k, v)] k = some v
    unfold lookupStr
    rw [if_pos rfl]
  | cons p rest ih =>
    show lookupStr (p :: (rest ++ [(k, v)])) k = some v
    unfold lookupStr
    unfold hasKey at h
    rw [Bool.or_eq_true_iff] at h
    push_neg at h
    rw [if_neg (fun hp => h.1 (decide_eq_true hp))]
    exact ih h.2

theorem lookupStr_dictInsert_self (d : List (String × String)) (k v : String) :
    lookupStr (dictInsert d k v) k = some v := by
  unfold dictInsert
  split
  next h => exact lookup_map_overwrite d k v h
  next h => exact lookup_append_single_self d k v h

theorem lookupStr_dictInsert_ne (d : List (String × String)) (k v k' : String)
    (h : k' ≠ k) :
    lookupStr (dictInsert d k v) k' = lookupStr d k' := by
  unfold dictInsert
  split
  · exact lookup_map_overwrite_ne d k v k' h
  · exact lookup_append_single_ne d k v k' h

theorem lookupStr_foldl_dictInsert_not_mem (f : String → String) (l : List String)
    (d : List (String × String)) (name : String) (h : name ∉ l) :
    lookupStr (l.foldl (fun d n => dictInsert d n (f n)) d) name = lookupStr d name := by
  induction l generalizing d with
  | nil => rfl
  | cons n rest ih =>
    rw [List.foldl_cons, ih _ (fun hm => h (List.mem_cons_of_mem n hm)),
        lookupStr_dictInsert_ne d n (f n) name (fun he => h (he ▸ List.mem_cons_self n rest))]

theorem lookupStr_foldl_dictInsert_mem (f : String → String) (l : List String)
    (d : List (String × String)) (name : String) (h : name ∈ l) :
    lookupStr (l.foldl (fun d n => dictInsert d n (f n)) d) name = some (f name) := by
  induction l generalizing d with
  | nil => cases h
  | cons n rest ih =>
    rw [List.foldl_cons]
    by_cases hr : name ∈ rest
    · exact ih _ hr
    · rcases List.mem_cons.mp h with he | he
      · subst he
        rw [lookupStr_foldl_dictInsert_not_mem f rest _ name hr,
            lookupStr_dictInsert_self]
      · exact absurd he hr

/-- C5: when the single batched generation call raises, the round falls
back to per-agent sequential calls (and the fall-back is reported through
the failure branch, modelled by `fellBack = true`); inside the fallback
every roster agent gets an entry — a raising agent an error placeholder,
the others their own response — and a round whose batched call succeeds
does not fall back (the fallback is per-call, hence per-round). -/
theorem claim5_batched_call_fallback (gen : Except String String)
    (respond : String → Except String String) (agents : List String) (e : String)
    (hg : gen = Except.error e) :
    (batch_respond gen respond agents).fellBack = true ∧
    (batch_respond gen respond agents).responses = fallback_individual_calls respond agents ∧
    (∀ name ∈ agents,
      lookupStr (batch_respond gen respond agents).responses name =
        some (match respond name with
              | Except.ok t => t
              | Except.error er => errorPlaceholder er)) ∧
    (∀ t : String, (batch_respond (Except.ok t) respond agents).fellBack = false) := by
  subst hg
  refine ⟨rfl, rfl, ?_, fun t => rfl⟩
  intro name hmem
  show lookupStr (fallback_individual_calls respond agents) name = _
  exact lookupStr_foldl_dictInsert_mem _ agents [] name hmem

/-- C5 witness: a failing batched call over `A`, `B`, `C` where only the
sequential call of `B` raises — the round is marked as fallen back, `B` gets an
error placeholder, `A` its own response. -/
theorem claim5_witness :
    (batch_respond (Except.error "apifail") respMixed rosterABC).fellBack = true ∧
    lookupStr (batch_respond (Except.error "apifail") respMixed rosterABC).responses "B" =
      some (errorPlaceholder "boom") ∧
    lookupStr (batch_respond (Except.error "apifail") respMixed rosterABC).responses "A" =
      some "resp-A" := by
  have h := claim5_batched_call_fallback (Except.error "apifail") respMixed rosterABC
    "apifail" rfl
  exact ⟨h.1, h.2.2.1 "B" (by decide), h.2.2.1 "A" (by decide)⟩

theorem keys_dictInsert (d : List (String × String)) (k v : String) :
    keys (dictInsert d k v) = if hasKey d k = true then keys d else keys d ++ [k] := by
  unfold dictInsert
  split
  next h =>
    unfold keys
    rw [List.map_map]
    congr 1
    funext p
    show (if p.1 = k then (k, v) else p).1 = p.1
    by_cases hp : p.1 = k
    · rw [if_pos hp]
      exact hp.symm
    · rw [if_neg hp]
  next h =>
    unfold keys
    rw [List.map_append]
    rfl

theorem keys_dictInsert_nodup (d : List (String × String)) (k v : String)
    (hd : (keys d).Nodup) : (keys (dictInsert d k v)).Nodup := by
  rw [keys_dictInsert]
  split
  · exact hd
  next h =>
    rw [List.nodup_append]
    refine ⟨hd, List.nodup_singleton k, ?_⟩
    intro a ha hb
    rw [List.mem_singleton] at hb
    subst hb
    exact h ((hasKey_iff_mem_keys d a).mpr ha)

theorem keys_dictInsert_sub (d : List (String × String)) (k v : String)
    (agents : List String) (hd : ∀ x ∈ keys d, x ∈ agents) (hk : k ∈ agents) :
    ∀ x ∈ keys (dictInsert d k v), x ∈ agents := by
  rw [keys_dictInsert]
  split
  · exact hd
  · intro x hx
    rcases List.mem_append.mp hx with h1 | h1
    · exact hd x h1
    · rw [List.mem_singleton] at h1
      subst h1
      exact hk

theorem StInv_saveCurrent (agents : List String) (st : ParseState)
    (h : StInv agents st) :
    (keys (saveCurrent st)).Nodup ∧ ∀ x ∈ keys (saveCurrent st), x ∈ agents := by
  obtain ⟨h1, h2, h3⟩ := h
  unfold saveCurrent
  cases hca : st.current_agent with
  | none => exact ⟨h1, h2⟩
  | some a =>
    dsimp only
    split
    · exact ⟨h1, h2⟩
    · split
      · exact ⟨h1, h2⟩
      · exact ⟨keys_dictInsert_nodup _ _ _ h1,
          keys_dictInsert_sub _ _ _ _ h2 (h3 a hca)⟩

theorem StInv_parseLine (agents : List String) (st : ParseState) (line : String)
    (h : StInv agents st) : StInv agents (parseLine agents st line) := by
  obtain ⟨h1, h2, h3⟩ := h
  have hs := StInv_saveCurrent agents st ⟨h1, h2, h3⟩
  unfold parseLine
  dsimp only
  split
  · split
    · exact ⟨hs.1, hs.2, h3⟩
    next n heq =>
      split
      next hrange =>
        refine ⟨hs.1, hs.2, ?_⟩
        intro a ha
        cases ha
        have hlt : (n - 1).toNat < agents.length := by omega
        rw [List.getD_eq_getElem agents "" hlt]
        exact List.getElem_mem _
      · exact ⟨hs.1, hs.2, h3⟩
  · split
    · exact ⟨h1, h2, h3⟩
    next a heq =>
      split
      · exact ⟨h1, h2, fun b hb => h3 b (heq ▸ hb)⟩
      · exact ⟨h1, h2, h3⟩

theorem StInv_foldl (agents : List String) (lines : List String) (st : ParseState)
    (h : StInv agents st) : StInv agents (lines.foldl (parseLine agents) st) := by
  induction lines generalizing st with
  | nil => exact h
  | cons l rest ih =>
    rw [List.foldl_cons]
    exact ih _ (StInv_parseLine agents st l h)

theorem parseScan_keys (agents : List String) (text : String) :
    (keys (parseScan agents text)).Nodup ∧ ∀ x ∈ keys (parseScan agents text), x ∈ agents := by
  unfold parseScan
  have h0 : StInv agents { responses := [], current_agent := none, current_response := [] } := by
    refine ⟨List.nodup_nil, ?_, ?_⟩
    · intro k hk
      cases hk
    · intro a ha
      cases ha
  exact StInv_saveCurrent agents _ (StInv_foldl agents _ _ h0)

theorem fill_preserves (l : List String) (d : List (String × String)) (name : String)
    (h : name ∉ l) :
    lookupStr (l.foldl (fun d n => if hasKey d n then d
      else dictInsert d n (batchPlaceholder n)) d) name = lookupStr d name := by
  induction l generalizing d with
  | nil => rfl
  | cons n rest ih =>
    rw [List.foldl_cons, ih _ (fun hm => h (List.mem_cons_of_mem n hm))]
    by_cases hk : hasKey d n = true
    · rw [if_pos hk]
    · rw [if_neg hk,
        lookupStr_dictInsert_ne d n _ name (fun he => h (he ▸ List.mem_cons_self n rest))]

theorem lookup_of_hasKey (d : List (String × String)) (k : String)
    (h : hasKey d k = true) : ∃ v, lookupStr d k = some v := by
  cases hlv : lookupStr d k with
  | none => exact absurd ((hasKey_iff_mem_keys d k).mp h) ((lookupStr_eq_none_iff d k).mp hlv)
  | some v => exact ⟨v, rfl⟩

theorem lookup_of_not_hasKey (d : List (String × String)) (k : String)
    (h : ¬ hasKey d k = true) : lookupStr d k = none :=
  (lookupStr_eq_none_iff d k).mpr (fun hm => h ((hasKey_iff_mem_keys d k).mpr hm))

theorem fill_lookup (l : List String) (d : List (String × String)) (name : String)
    (h : name ∈ l) :
    lookupStr (l.foldl (fun d n => if hasKey d n then d
      else dictInsert d n (batchPlaceholder n)) d) name =
      some ((lookupStr d name).getD (batchPlaceholder name)) := by
  induction l generalizing d with
  | nil => cases h
  | cons n rest ih =>
    rw [List.foldl_cons]
    by_cases hr : name ∈ rest
    · rw [ih _ hr]
      congr 1
      by_cases hn : n = name
      · subst hn
        by_cases hk : hasKey d n = true
        · rw [if_pos hk]
        · rw [if_neg hk, lookupStr_dictInsert_self, lookup_of_not_hasKey d n hk]
          rfl
      · by_cases hk : hasKey d n = true
        · rw [if_pos hk]
        · rw [if_neg hk, lookupStr_dictInsert_ne d n _ name (fun he => hn he.symm)]
    · rcases List.mem_cons.mp h with he | he
      · subst he
        rw [fill_preserves rest _ name hr]
        by_cases hk : hasKey d name = true
        · rw [if_pos hk]
          obtain ⟨v, hv⟩ := lookup_of_hasKey d name hk
          rw [hv]
          rfl
        · rw [if_neg hk, lookupStr_dictInsert_self, lookup_of_not_hasKey d name hk]
          rfl
      · exact absurd he hr

theorem fill_keys_nodup (l : List String) (d : List (String × String))
    (h : (keys d).Nodup) :
    (keys (l.foldl (fun d n => if hasKey d n then d
      else dictInsert d n (batchPlaceholder n)) d)).Nodup := by
  induction l generalizing d with
  | nil => exact h
  | cons n rest ih =>
    rw [List.foldl_cons]
    refine ih _ ?_
    by_cases hk : hasKey d n = true
    · rw [if_pos hk]
      exact h
    · rw [if_neg hk]
      exact keys_dictInsert_nodup _ _ _ h

/-- C6: for every batched response text and roster, the parsed result has
exactly one entry per roster name: a name recovered by the label scan keeps
its scanned text, and a name the scan did not recover is mapped to the
incompleteness placeholder — partial parse success is preserved. -/
theorem claim6_partial_parse (text : String) (agents : List String) (name : String)
    (hmem : name ∈ agents) :
    lookupStr (parse_batch_response text agents) name =
      some ((lookupStr (parseScan agents text) name).getD (batchPlaceholder name)) ∧
    (keys (parse_batch_response text agents)).Nodup := by
  constructor
  case right =>
    unfold parse_batch_response
    dsimp only
    split
    · exact fill_keys_nodup agents (parseScan agents text) (parseScan_keys agents text).1
    · exact (parseScan_keys agents text).1
  unfold parse_batch_response
  dsimp only
  split
  next hne => exact fill_lookup agents (parseScan agents text) name hmem
  next heqn =>
    have heq : (parseScan agents text).length = agents.length := not_not.mp heqn
    obtain ⟨hnd, hsub⟩ := parseScan_keys agents text
    have hsubF : (keys (parseScan agents text)).toFinset ⊆ agents.toFinset := by
      intro a ha
      rw [List.mem_toFinset] at ha ⊢
      exact hsub a ha
    have hcard1 : (keys (parseScan agents text)).toFinset.card =
        (parseScan agents text).length := by
      rw [List.toFinset_card_of_nodup hnd]
      exact List.length_map _ _
    have hcard2 : agents.toFinset.card ≤ (keys (parseScan agents text)).toFinset.card := by
      rw [hcard1, heq]
      exact List.toFinset_card_le agents
    have hFeq : (keys (parseScan agents text)).toFinset = agents.toFinset :=
      Finset.eq_of_subset_of_card_le hsubF hcard2
    have hin : name ∈ keys (parseScan agents text) := by
      rw [← List.mem_toFinset, hFeq, List.mem_toFinset]
      exact hmem
    cases hlv : lookupStr (parseScan agents text) name with
    | none => exact absurd hin ((lookupStr_eq_none_iff _ _).mp hlv)
    | some v => rfl

/-- C6 witness: with roster `A`, `B`, `C` and a batched text carrying only
the labels of agents 1 and 3, exactly `B` gets the placeholder while `A`
and `C` keep their parsed texts. -/
theorem claim6_witness :
    lookupStr (parse_batch_response batchText rosterABC) "B" =
      some ((lookupStr (parseScan rosterABC batchText) "B").getD (batchPlaceholder "B")) ∧
    lookupStr (parse_batch_response batchText rosterABC) "A" = some "foo" ∧
    lookupStr (parse_batch_response batchText rosterABC) "B" = some (batchPlaceholder "B") ∧
    lookupStr (parse_batch_response batchText rosterABC) "C" = some "bar" := by
  refine ⟨(claim6_partial_parse batchText rosterABC "B" (by decide)).1, ?_, ?_, ?_⟩ <;> decide

/-! ## Round and run lemmas -/

theorem round_fold_events (s : Summarizer) (stage : String)
    (g : ConversationManager × List Event → String → String) (agents : List String)
    (cmes : ConversationManager × List Event) :
    (agents.foldl (fun acc name => (add_message s acc.1 name (g acc name),
      acc.2 ++ [Event.appended name stage])) cmes).2 =
      cmes.2 ++ agents.map (fun a => Event.appended a stage) := by
  induction agents generalizing cmes with
  | nil => simp
  | cons n rest ih =>
    rw [List.foldl_cons, ih]
    dsimp only
    rw [List.map_cons, List.append_assoc]
    rfl

theorem round_fold_round (s : Summarizer) (stage : String)
    (g : ConversationManager × List Event → String → String) (agents : List String)
    (cmes : ConversationManager × List Event) :
    (agents.foldl (fun acc name => (add_message s acc.1 name (g acc name),
      acc.2 ++ [Event.appended name stage])) cmes).1.round = cmes.1.round := by
  induction agents generalizing cmes with
  | nil => rfl
  | cons n rest ih =>
    rw [List.foldl_cons, ih]
    dsimp only
    exact add_message_kind_round ..

theorem round_fold_count (s : Summarizer) (stage : String)
    (g : ConversationManager × List Event → String → String) (agents : List String)
    (cmes : ConversationManager × List Event) :
    (nonSystem (agents.foldl (fun acc name => (add_message s acc.1 name (g acc name),
      acc.2 ++ [Event.appended name stage])) cmes).1.history).length =
      (nonSystem cmes.1.history).length + agents.length := by
  induction agents generalizing cmes with
  | nil => rfl
  | cons n rest ih =>
    rw [List.foldl_cons, ih]
    dsimp only
    rw [nonSystem_add_message, List.length_append]
    simp only [List.length_cons, List.length_nil]
    omega

theorem add_message_round (s : Summarizer) (cm : ConversationManager) (sp t : String) :
    (add_message s cm sp t).round = cm.round :=
  add_message_kind_round s cm sp t "response"

theorem round_fold_history_const (s : Summarizer) (stage : String) (f : String → String)
    (agents : List String) (cmes : ConversationManager × List Event) :
    (agents.foldl (fun acc name => (add_message s acc.1 name (f name),
      acc.2 ++ [Event.appended name stage])) cmes).1.history =
      cmes.1.history ++
        agents.map (fun name => mkMessage cmes.1.round name (f name) "response") := by
  induction agents generalizing cmes with
  | nil => simp
  | cons n rest ih =>
    rw [List.foldl_cons, ih]
    dsimp only
    rw [add_message_history, add_message_round, List.map_cons, List.append_assoc]
    rfl

theorem individual_round_events (o : Oracles) (agents : List String) (stage : String)
    (sc : Option String) (cmes : ConversationManager × List Event) :
    (individual_round o agents stage sc cmes).2 =
      cmes.2 ++ agents.map (fun a => Event.appended a stage) := by
  unfold individual_round
  exact round_fold_events o.summarize stage _ agents cmes

theorem individual_round_round (o : Oracles) (agents : List String) (stage : String)
    (sc : Option String) (cmes : ConversationManager × List Event) :
    (individual_round o agents stage sc cmes).1.round = cmes.1.round := by
  unfold individual_round
  exact round_fold_round o.summarize stage _ agents cmes

theorem individual_round_count (o : Oracles) (agents : List String) (stage : String)
    (sc : Option String) (cmes : ConversationManager × List Event) :
    (nonSystem (individual_round o agents stage sc cmes).1.history).length =
      (nonSystem cmes.1.history).length + agents.length := by
  unfold individual_round
  exact round_fold_count o.summarize stage _ agents cmes

theorem batch_round_events (o : Oracles) (agents : List String) (stage ctx : String)
    (cmes : ConversationManager × List Event) :
    (batch_round o agents stage ctx cmes).2 =
      cmes.2 ++ agents.map (fun a => Event.appended a stage) := by
  unfold batch_round
  exact round_fold_events o.summarize stage _ agents cmes

theorem batch_round_round (o : Oracles) (agents : List String) (stage ctx : String)
    (cmes : ConversationManager × List Event) :
    (batch_round o agents stage ctx cmes).1.round = cmes.1.round := by
  unfold batch_round
  exact round_fold_round o.summarize stage _ agents cmes

theorem batch_round_count (o : Oracles) (agents : List String) (stage ctx : String)
    (cmes : ConversationManager × List Event) :
    (nonSystem (batch_round o agents stage ctx cmes).1.history).length =
      (nonSystem cmes.1.history).length + agents.length := by
  unfold batch_round
  exact round_fold_count o.summarize stage _ agents cmes

theorem batch_round_history (o : Oracles) (agents : List String) (stage ctx : String)
    (cmes : ConversationManager × List Event) :
    (batch_round o agents stage ctx cmes).1.history =
      cmes.1.history ++ agents.map (fun name =>
        mkMessage cmes.1.round name
          ((lookupStr (batch_respond (o.gen cmes.1.round)
              (fun n => o.respondExc n ctx stage) agents).responses name).getD
            ("[No response from " ++ name ++ "]")) "response") := by
  unfold batch_round
  exact round_fold_history_const o.summarize stage _ agents cmes

theorem opening_events (o : Oracles) (agents : List String) (ub : Bool)
    (cmes : ConversationManager × List Event) :
    (opening_statements o agents ub cmes).2 =
      cmes.2 ++ stage_events agents "opening" (cmes.1.round + 1) := by
  unfold opening_statements
  dsimp only
  split
  · rw [batch_round_events]
    dsimp only
    rw [advance_round_round, List.append_assoc]
    rfl
  · rw [individual_round_events]
    dsimp only
    rw [advance_round_round, List.append_assoc]
    rfl

theorem opening_round (o : Oracles) (agents : List String) (ub : Bool)
    (cmes : ConversationManager × List Event) :
    (opening_statements o agents ub cmes).1.round = cmes.1.round + 1 := by
  unfold opening_statements
  dsimp only
  split
  · rw [batch_round_round, advance_round_round]
  · rw [individual_round_round, advance_round_round]

theorem opening_count (o : Oracles) (agents : List String) (ub : Bool)
    (cmes : ConversationManager × List Event) :
    (nonSystem (opening_statements o agents ub cmes).1.history).length =
      (nonSystem cmes.1.history).length + agents.length := by
  unfold opening_statements
  dsimp only
  split
  · rw [batch_round_count]
    dsimp only
    rw [nonSystem_advance_round]
  · rw [individual_round_count]
    dsimp only
    rw [nonSystem_advance_round]

theorem rebuttal_events (o : Oracles) (agents : List String) (ub : Bool)
    (cmes : ConversationManager × List Event) :
    (rebuttal_round o agents ub cmes).2 =
      cmes.2 ++ stage_events agents "rebuttal" (cmes.1.round + 1) := by
  unfold rebuttal_round
  dsimp only
  split
  · rw [batch_round_events]
    dsimp only
    rw [advance_round_round, List.append_assoc]
    rfl
  · rw [individual_round_events]
    dsimp only
    rw [advance_round_round, List.append_assoc]
    rfl

theorem rebuttal_round_round (o : Oracles) (agents : List String) (ub : Bool)
    (cmes : ConversationManager × List Event) :
    (rebuttal_round o agents ub cmes).1.round = cmes.1.round + 1 := by
  unfold rebuttal_round
  dsimp only
  split
  · rw [batch_round_round, advance_round_round]
  · rw [individual_round_round, advance_round_round]

theorem rebuttal_count (o : Oracles) (agents : List String) (ub : Bool)
    (cmes : ConversationManager × List Event) :
    (nonSystem (rebuttal_round o agents ub cmes).1.history).length =
      (nonSystem cmes.1.history).length + agents.length := by
  unfold rebuttal_round
  dsimp only
  split
  · rw [batch_round_count]
    dsimp only
    rw [nonSystem_advance_round]
  · rw [individual_round_count]
    dsimp only
    rw [nonSystem_advance_round]

theorem closing_events (o : Oracles) (agents : List String) (ub : Bool)
    (cmes : ConversationManager × List Event) :
    (closing_round o agents ub cmes).2 =
      cmes.2 ++ stage_events agents "closing" (cmes.1.round + 1) := by
  unfold closing_round
  dsimp only
  split
  · rw [batch_round_events]
    dsimp only
    rw [advance_round_round, List.append_assoc]
    rfl
  · rw [individual_round_events]
    dsimp only
    rw [advance_round_round, List.append_assoc]
    rfl

theorem closing_round_round (o : Oracles) (agents : List String) (ub : Bool)
    (cmes : ConversationManager × List Event) :
    (closing_round o agents ub cmes).1.round = cmes.1.round + 1 := by
  unfold closing_round
  dsimp only
  split
  · rw [batch_round_round, advance_round_round]
  · rw [individual_round_round, advance_round_round]

theorem closing_count (o : Oracles) (agents : List String) (ub : Bool)
    (cmes : ConversationManager × List Event) :
    (nonSystem (closing_round o agents ub cmes).1.history).length =
      (nonSystem cmes.1.history).length + agents.length := by
  unfold closing_round
  dsimp only
  split
  · rw [batch_round_count]
    dsimp only
    rw [nonSystem_advance_round]
  · rw [individual_round_count]
    dsimp only
    rw [nonSystem_advance_round]

theorem iterate_rebuttals_events (o : Oracles) (agents : List String) (ub : Bool)
    (n : Nat) (cmes : ConversationManager × List Event) :
    (iterate_rebuttals o agents ub n cmes).2 =
      cmes.2 ++ trace_from agents (List.replicate n "rebuttal") (cmes.1.round + 1) := by
  induction n generalizing cmes with
  | zero => simp [iterate_rebuttals, trace_from]
  | succ k ih =>
    show (iterate_rebuttals o agents ub k (rebuttal_round o agents ub cmes)).2 = _
    rw [ih, rebuttal_events, rebuttal_round_round, List.append_assoc]
    rw [List.replicate_succ]
    rfl

theorem iterate_rebuttals_round (o : Oracles) (agents : List String) (ub : Bool)
    (n : Nat) (cmes : ConversationManager × List Event) :
    (iterate_rebuttals o agents ub n cmes).1.round = cmes.1.round + n := by
  induction n generalizing cmes with
  | zero => rfl
  | succ k ih =>
    show (iterate_rebuttals o agents ub k (rebuttal_round o agents ub cmes)).1.round = _
    rw [ih, rebuttal_round_round]
    omega

theorem iterate_rebuttals_count (o : Oracles) (agents : List String) (ub : Bool)
    (n : Nat) (cmes : ConversationManager × List Event) :
    (nonSystem (iterate_rebuttals o agents ub n cmes).1.history).length =
      (nonSystem cmes.1.history).length + n * agents.length := by
  induction n generalizing cmes with
  | zero => simp [iterate_rebuttals]
  | succ k ih =>
    show (nonSystem (iterate_rebuttals o agents ub k
      (rebuttal_round o agents ub cmes)).1.history).length = _
    rw [ih, rebuttal_count]
    ring

theorem trace_from_append (agents : List String) (l1 l2 : List String) (k : Nat) :
    trace_from agents (l1 ++ l2) k =
      trace_from agents l1 k ++ trace_from agents l2 (k + l1.length) := by
  induction l1 generalizing k with
  | nil => simp [trace_from]
  | cons s rest ih =>
    show stage_events agents s k ++ trace_from agents (rest ++ l2) (k + 1) = _
    rw [ih, ← List.append_assoc,
      show k + 1 + rest.length = k + (rest.length + 1) from by omega]
    rfl

theorem start_debate_nonSystem (s : Summarizer) (cm : ConversationManager)
    (topic : String) (agents : List String) :
    nonSystem (start_debate s cm topic agents).history = [] := by
  rw [start_debate_state]
  dsimp only
  simp [nonSystem, mkMessage]

theorem trace_schedule (agents : List String) (mr : Nat) :
    trace_from agents (schedule mr) 1 =
      stage_events agents "opening" 1 ++
      (trace_from agents (List.replicate (mr - 2) "rebuttal") 2 ++
       stage_events agents "closing" (mr - 2 + 2)) := by
  unfold schedule
  show stage_events agents "opening" 1 ++
      trace_from agents (List.replicate (mr - 2) "rebuttal" ++ ["closing"]) 2 = _
  rw [trace_from_append]
  congr 1
  congr 1
  show stage_events agents "closing" (2 + (List.replicate (mr - 2) "rebuttal").length) ++ [] = _
  rw [List.append_nil, List.length_replicate,
    show 2 + (mr - 2) = mr - 2 + 2 from by omega]

theorem debate_run_events (o : Oracles) (mode : ContextMode) (agents : List String)
    (topic : String) (mr : Nat) (ub : Bool) :
    (debate_run o mode agents topic mr ub).2 = trace_from agents (schedule mr) 1 := by
  unfold debate_run
  dsimp only
  rw [closing_events, iterate_rebuttals_events, opening_events, iterate_rebuttals_round,
      opening_round]
  rw [show (start_debate o.summarize (init_cm mode) topic agents).round = 0 from by
    rw [start_debate_state]]
  rw [trace_schedule]
  simp only [List.append_assoc, List.nil_append]
  rw [show 0 + 1 + (mr - 2) + 1 = mr - 2 + 2 from by omega]

theorem debate_run_round (o : Oracles) (mode : ContextMode) (agents : List String)
    (topic : String) (mr : Nat) (ub : Bool) :
    (debate_run o mode agents topic mr ub).1.round = (mr - 2) + 2 := by
  unfold debate_run
  dsimp only
  rw [closing_round_round, iterate_rebuttals_round, opening_round,
    show (start_debate o.summarize (init_cm mode) topic agents).round = 0 from by
      rw [start_debate_state]]
  omega

theorem debate_run_count (o : Oracles) (mode : ContextMode) (agents : List String)
    (topic : String) (mr : Nat) (ub : Bool) :
    (nonSystem (debate_run o mode agents topic mr ub).1.history).length =
      ((mr - 2) + 2) * agents.length := by
  unfold debate_run
  dsimp only
  rw [closing_count, iterate_rebuttals_count, opening_count]
  dsimp only
  rw [start_debate_nonSystem]
  simp only [List.length_nil]
  ring

/-- C2: a completed run over `max_rounds ≥ 2` leaves exactly
`max_rounds × P` non-system turns — one response per participant per stage
— for every mode, both acquisition strategies and arbitrary outcomes of all
external calls; and in a batched round each roster entry is appended with
its looked-up response, or with the `[No response from …]` placeholder when
the batch result lacks its name — never omitted. -/
theorem claim2_round_length_invariant (o : Oracles) (mode : ContextMode)
    (agents : List String) (topic : String) (mr : Nat) (ub : Bool) (h : 2 ≤ mr) :
    (nonSystem (debate_run o mode agents topic mr ub).1.history).length =
      mr * agents.length ∧
    (schedule mr).length = mr ∧
    (∀ (stage ctx : String) (cmes : ConversationManager × List Event),
      (batch_round o agents stage ctx cmes).1.history =
        cmes.1.history ++ agents.map (fun name =>
          mkMessage cmes.1.round name
            ((lookupStr (batch_respond (o.gen cmes.1.round)
                (fun n => o.respondExc n ctx stage) agents).responses name).getD
              ("[No response from " ++ name ++ "]")) "response")) := by
  refine ⟨?_, ?_, fun stage ctx cmes => batch_round_history o agents stage ctx cmes⟩
  · rw [debate_run_count, show mr - 2 + 2 = mr from by omega]
  · show ("opening" :: (List.replicate (mr - 2) "rebuttal" ++ ["closing"])).length = mr
    simp only [List.length_cons, List.length_append, List.length_replicate,
      List.length_nil]
    omega

/-- C2 witness: a concrete 3-stage batched HYBRID run over three agents
yields 9 non-system turns. -/
theorem claim2_witness :
    (nonSystem (debate_run oEx ContextMode.HYBRID rosterABC "t" 3 true).1.history).length =
      3 * rosterABC.length :=
  (claim2_round_length_invariant oEx ContextMode.HYBRID rosterABC "t" 3 true (by decide)).1

/-- C4: for `max_rounds ≥ 2` a run produces exactly the event trace of the
schedule `opening`, `max_rounds − 2` rebuttals, `closing`, in that order —
in each stage one round advancement (to rounds 1, 2, …, `max_rounds`)
strictly before the per-participant appends of that stage in roster order; the
schedule has `max_rounds` stages, the final round counter is `max_rounds`,
and each advancement increments the counter and appends the
round-announcement system turn. -/
theorem claim4_stage_schedule (o : Oracles) (mode : ContextMode) (agents : List String)
    (topic : String) (mr : Nat) (ub : Bool) (h : 2 ≤ mr) :
    (debate_run o mode agents topic mr ub).2 = trace_from agents (schedule mr) 1 ∧
    schedule mr = "opening" :: (List.replicate (mr - 2) "rebuttal" ++ ["closing"]) ∧
    (schedule mr).length = mr ∧
    (debate_run o mode agents topic mr ub).1.round = mr ∧
    (∀ (s : Summarizer) (cm : ConversationManager),
      advance_round s cm =
        { cm with round := cm.round + 1,
                  history := cm.history ++ [mkMessage (cm.round + 1) "SYSTEM"
                    ("Round " ++ toString (cm.round + 1) ++ " begins.") "system"] }) := by
  refine ⟨debate_run_events .., rfl, ?_, ?_, fun s cm => advance_round_state s cm⟩
  · show ("opening" :: (List.replicate (mr - 2) "rebuttal" ++ ["closing"])).length = mr
    simp only [List.length_cons, List.length_append, List.length_replicate,
      List.length_nil]
    omega
  · rw [debate_run_round]
    omega

/-- C4 witness: a two-round single-agent run matches the opening-closing
trace with final round 2. -/
theorem claim4_witness :
    (debate_run oEx ContextMode.FULL ["A"] "t" 2 false).2 =
      trace_from ["A"] (schedule 2) 1 ∧
    (debate_run oEx ContextMode.FULL ["A"] "t" 2 false).1.round = 2 := by
  have h := claim4_stage_schedule oEx ContextMode.FULL ["A"] "t" 2 false (by decide)
  exact ⟨h.1, h.2.2.2.1⟩

/-- C9 counterexample: a controller constructed with `max_rounds = 1` and
two participants is not rejected — the run completes with 4 response turns
over 2 executed rounds, so a `max_rounds < 2` configuration does run. -/
theorem claim9_counterexample :
    (nonSystem (debate_run oEx ContextMode.FULL ["A", "B"] "t" 1 false).1.history).length = 4 ∧
    (debate_run oEx ContextMode.FULL ["A", "B"] "t" 1 false).1.round = 2 := by
  constructor
  · rw [debate_run_count]
    rfl
  · rw [debate_run_round]

/-- C9 (amended): only the roster size is validated, and only by the CLI
entry point — `main.run` returns before constructing the controller when
fewer than 2 agents were built, and otherwise always runs with the default
`max_rounds = 3`; `max_rounds` itself is validated nowhere: a controller
run with `max_rounds < 2` is not rejected and executes the degenerate
opening-plus-closing schedule. -/
theorem claim9_config_validation_amended (o : Oracles) (mode : ContextMode)
    (agents : List String) (topic : String) (ub : Bool) :
    (agents.length < 2 → main_run o mode agents topic ub = none) ∧
    (2 ≤ agents.length →
      main_run o mode agents topic ub = some (debate_run o mode agents topic 3 ub)) ∧
    (∀ mr, mr < 2 →
      (debate_run o mode agents topic mr ub).2 =
        trace_from agents ["opening", "closing"] 1) := by
  refine ⟨?_, ?_, ?_⟩
  · intro h
    unfold main_run
    rw [if_pos h]
  · intro h
    unfold main_run
    rw [if_neg (by omega)]
  · intro mr hmr
    rw [debate_run_events]
    unfold schedule
    rw [show mr - 2 = 0 from by omega]
    rfl

/-- C9 amended witness: a one-agent roster is turned away by the CLI guard,
and a `max_rounds = 1` run still executes opening and closing. -/
theorem claim9_witness :
    main_run oEx ContextMode.FULL ["A"] "t" false = none ∧
    (debate_run oEx ContextMode.FULL ["A"] "t" 1 false).2 =
      trace_from ["A"] ["opening", "closing"] 1 := by
  have h := claim9_config_validation_amended oEx ContextMode.FULL ["A"] "t" false
  exact ⟨h.1 (by decide), h.2.2 1 (by decide)⟩

end DebAIte
